import Mathlib

/-!
Verification development for the smart-pipeline crawler (`heavey2.py`).

The pipeline escalates through extraction strategies (static fetch →
embedded-JSON scan → discovered-API probe → heavy render) and records one
manifest line per URL.  This file embeds the pipeline shallowly:

* Python JSON values (`PyJson`) with Python truthiness, and an executable
  model of `json.loads` (`jsonLoads`);
* the three scanning regexes of the source, as executable matchers that
  follow Python `re` backtracking semantics for those fixed patterns;
* the scanner functions `extract_ld_json`, `extract_inline_json`,
  `find_xhr_candidates`;
* `fetch_json_api`, `heavy_render` and `process_url` as trace-producing
  functions over an oracle `World` (network, render capability, hashing);
* a transition system for the per-domain semaphore (`domain_locks`).

External effects (aiohttp, Crawl4AI, the filesystem, hashing, base64) are
modelled as oracle fields of `World`; timestamps (`start`, `elapsed`) are
omitted from the manifest-record model since no property depends on them.
-/

/-- Python JSON values as returned by `json.loads`: numbers are decimals
`m * 10 ^ e` (covering both int and non-special float results). -/
inductive PyJson where
  | null : PyJson
  | bool (b : Bool) : PyJson
  | num (m : Int) (e : Int) : PyJson
  | str (s : String) : PyJson
  | arr (xs : List PyJson) : PyJson
  | obj (kvs : List (String × PyJson)) : PyJson

/-- Python truthiness of a JSON value: `None`, `False`, `0`, `""`, `[]`,
`{}` are falsy, everything else truthy. -/
def PyJson.truthy : PyJson → Bool
  | .null => false
  | .bool b => b
  | .num m _ => m ≠ 0
  | .str s => s ≠ ""
  | .arr xs => ¬ xs.isEmpty
  | .obj kvs => ¬ kvs.isEmpty

/-- JSON whitespace accepted by `json.loads` between tokens. -/
def isJsonWs (c : Char) : Bool := c = ' ' ∨ c = '\t' ∨ c = '\n' ∨ c = '\r'

/-- Python `\s` whitespace class (ASCII part), used by the `re.sub` models. -/
def isPyWs (c : Char) : Bool :=
  c = ' ' ∨ c = '\t' ∨ c = '\n' ∨ c = '\r' ∨ c = '\x0c' ∨ c = '\x0b'

/-- Drop leading JSON whitespace. -/
def skipWs : List Char → List Char
  | [] => []
  | c :: cs => if isJsonWs c then skipWs cs else c :: cs

/-- Hex digit value, for `\uXXXX` escapes. -/
def hexDigitValue (c : Char) : Option Nat :=
  if '0' ≤ c ∧ c ≤ '9' then some (c.toNat - 48)
  else if 'a' ≤ c ∧ c ≤ 'f' then some (c.toNat - 87)
  else if 'A' ≤ c ∧ c ≤ 'F' then some (c.toNat - 55)
  else none

/-- Parse a JSON string body (after the opening quote), honoring escapes and
rejecting raw control characters (strict mode of `json.loads`). -/
def parseJStr : List Char → Option (String × List Char)
  | [] => none
  | c :: cs =>
    if c = '"' then some ("", cs)
    else if c = '\\' then
      match cs with
      | [] => none
      | e :: cs2 =>
        if e = '"' then (parseJStr cs2).map (fun p => ("\"" ++ p.1, p.2))
        else if e = '\\' then (parseJStr cs2).map (fun p => ("\\" ++ p.1, p.2))
        else if e = '/' then (parseJStr cs2).map (fun p => ("/" ++ p.1, p.2))
        else if e = 'b' then (parseJStr cs2).map (fun p => ("\x08" ++ p.1, p.2))
        else if e = 'f' then (parseJStr cs2).map (fun p => ("\x0c" ++ p.1, p.2))
        else if e = 'n' then (parseJStr cs2).map (fun p => ("\n" ++ p.1, p.2))
        else if e = 'r' then (parseJStr cs2).map (fun p => ("\r" ++ p.1, p.2))
        else if e = 't' then (parseJStr cs2).map (fun p => ("\t" ++ p.1, p.2))
        else if e = 'u' then
          match cs2 with
          | h1 :: h2 :: h3 :: h4 :: cs3 =>
            match hexDigitValue h1, hexDigitValue h2, hexDigitValue h3, hexDigitValue h4 with
            | some a, some b, some c2, some d =>
              (parseJStr cs3).map
                (fun p => (String.singleton (Char.ofNat (((a*16+b)*16+c2)*16+d)) ++ p.1, p.2))
            | _, _, _, _ => none
          | _ => none
        else none
    else if c.toNat < 32 then none
    else (parseJStr cs).map (fun p => (String.singleton c ++ p.1, p.2))

/-- Decimal digits to a natural number. -/
def digitsToNat (ds : List Char) : Nat := ds.foldl (fun a c => a * 10 + (c.toNat - 48)) 0

/-- Parse a JSON number (`-? int frac? exp?`), as mantissa and decimal
exponent. -/
def parseJNum (cs : List Char) : Option (PyJson × List Char) :=
  let (neg, cs1) := match cs with | '-' :: r => (true, r) | _ => (false, cs)
  let ip := cs1.takeWhile Char.isDigit
  let cs2 := cs1.drop ip.length
  if ip.isEmpty then none
  else if 1 < ip.length ∧ ip.head? = some '0' then none
  else
    let (fd, cs3) :=
      match cs2 with
      | '.' :: r =>
        let ds := r.takeWhile Char.isDigit
        (some ds, r.drop ds.length)
      | _ => (none, cs2)
    match fd with
    | some [] => none
    | _ =>
      let fracDs := fd.getD []
      let parseExpTail := fun (r : List Char) =>
        let (esign, r2) :=
          match r with
          | '+' :: t => ((1 : Int), t)
          | '-' :: t => ((-1 : Int), t)
          | _ => ((1 : Int), r)
        let eds := r2.takeWhile Char.isDigit
        if eds.isEmpty then none
        else some (esign * (digitsToNat eds : Int), r2.drop eds.length)

      let expRes : Option (Int × List Char) :=
        match cs3 with
        | 'e' :: r => parseExpTail r
        | 'E' :: r => parseExpTail r
        | _ => some (0, cs3)
      match expRes with
      | none => none
      | some (ev, cs4) =>
        let m0 : Int := (digitsToNat (ip ++ fracDs) : Int)
        let m := if neg then -m0 else m0
        some (PyJson.num m (ev - (fracDs.length : Int)), cs4)

/-- Insert a key into an object under construction: `json.loads` keeps the
last value for a duplicated key, at the key's first position. -/
def upsert (kvs : List (String × PyJson)) (k : String) (v : PyJson) :
    List (String × PyJson) :=
  if kvs.any (fun p => p.1 = k) then
    kvs.map (fun p => if p.1 = k then (k, v) else p)
  else kvs ++ [(k, v)]

/-- Work items of the JSON value parser: a value, the members of an object
being read, or the items of an array being read. -/
inductive JIn where
  | val (cs : List Char) : JIn
  | members (cs : List Char) (acc : List (String × PyJson)) : JIn
  | items (cs : List Char) (acc : List PyJson) : JIn

/-- Literal-prefix match (case sensitive); returns the rest on success. -/
def matchLit : List Char → List Char → Option (List Char)
  | [], s => some s
  | _ :: _, [] => none
  | p :: ps, c :: cs => if c = p then matchLit ps cs else none

/-- Case-insensitive literal-prefix match (for the `re.I` pattern). -/
def matchLitCI : List Char → List Char → Option (List Char)
  | [], s => some s
  | _ :: _, [] => none
  | p :: ps, c :: cs => if c.toLower = p.toLower then matchLitCI ps cs else none

/-- Fuel-indexed recursive JSON reader behind `jsonLoads`. -/
def jstep : Nat → JIn → Option (PyJson × List Char)
  | 0, _ => none
  | fuel + 1, .val cs =>
    match skipWs cs with
    | [] => none
    | c :: rest =>
      if c = '"' then (parseJStr rest).map (fun p => (PyJson.str p.1, p.2))
      else if c = '\x7b' then
        match skipWs rest with
        | '\x7d' :: r2 => some (PyJson.obj [], r2)
        | r2 => jstep fuel (.members r2 [])
      else if c = '[' then
        match skipWs rest with
        | ']' :: r2 => some (PyJson.arr [], r2)
        | r2 => jstep fuel (.items r2 [])
      else
        match matchLit "true".data (c :: rest) with
        | some r2 => some (PyJson.bool true, r2)
        | none =>
          match matchLit "false".data (c :: rest) with
          | some r2 => some (PyJson.bool false, r2)
          | none =>
            match matchLit "null".data (c :: rest) with
            | some r2 => some (PyJson.null, r2)
            | none => parseJNum (c :: rest)
  | fuel + 1, .members cs acc =>
    match cs with
    | '"' :: r =>
      match parseJStr r with
      | none => none
      | some (k, r2) =>
        match skipWs r2 with
        | ':' :: r3 =>
          match jstep fuel (.val r3) with
          | none => none
          | some (v, r4) =>
            match skipWs r4 with
            | ',' :: r5 =>
              match skipWs r5 with
              | '"' :: r6 => jstep fuel (.members ('"' :: r6) (upsert acc k v))
              | _ => none
            | '\x7d' :: r5 => some (PyJson.obj (upsert acc k v), r5)
            | _ => none
        | _ => none
    | _ => none
  | fuel + 1, .items cs acc =>
    match jstep fuel (.val cs) with
    | none => none
    | some (v, r) =>
      match skipWs r with
      | ',' :: r2 => jstep fuel (.items r2 (acc ++ [v]))
      | ']' :: r2 => some (PyJson.arr (acc ++ [v]), r2)
      | _ => none

/-- Model of Python `json.loads`: parse one JSON document and require only
whitespace after it; `none` models a raised `JSONDecodeError`.  (The
non-standard `NaN`/`Infinity` extensions are not modelled; no property here
involves them.) -/
def jsonLoads (s : String) : Option PyJson :=
  match jstep (2 * s.length + 4) (.val s.data) with
  | some (v, rest) => if (skipWs rest).isEmpty then some v else none
  | none => none

/-- Model of `re.sub(r',\s*([}\]])', r'\1', txt)` (the corrective pass of
`extract_inline_json`): each comma followed by whitespace and a closing
brace/bracket is replaced by just the bracket, scanning left to right over
non-overlapping matches.  Fuel is the input length (each step consumes at
least one character). -/
def stripTCF : Nat → List Char → List Char
  | 0, cs => cs
  | _ + 1, [] => []
  | fuel + 1, c :: rest =>
    if c = ',' then
      match rest.dropWhile isPyWs with
      | b :: rest3 =>
        if b = '\x7d' ∨ b = ']' then b :: stripTCF fuel rest3
        else ',' :: stripTCF fuel rest
      | [] => ',' :: stripTCF fuel rest
    else c :: stripTCF fuel rest

/-- The corrective pass on strings. -/
def stripTrailingCommas (s : String) : String := String.mk (stripTCF s.length s.data)

/-- First success of `f` over a list, in order — the backtracking search
order of the regex engine. -/
def firstSome {α β : Type} (f : α → Option β) : List α → Option β
  | [] => none
  | x :: xs =>
    match f x with
    | some b => some b
    | none => firstSome f xs

/-- The list `[a, a-1, ..., b]` (empty when `a < b`): greedy repetition
tries the longest count first. -/
def countdown (a b : Nat) : List Nat := (List.range (a + 1 - b)).map (fun k => a - k)

/-- Greedy character-class repetition `p{lo,hi}` with backtracking: the run
of `p`-characters bounds the count; longer counts are tried first, each
passing the remaining input to the continuation. -/
def greedyCls {α : Type} (p : Char → Bool) (lo : Nat) (hi : Option Nat)
    (s : List Char) (k : List Char → Option α) : Option α :=
  let run := (s.takeWhile p).length
  let top := match hi with | some h => min run h | none => run
  firstSome (fun n => k (s.drop n)) (countdown top lo)

/-- Lazy star `p*?` with capture: shortest skips first, passing skipped
characters and remaining input to the continuation. -/
def lazyStarCap {α : Type} (p : Char → Bool) (s : List Char)
    (k : List Char → List Char → Option α) : Option α :=
  let run := (s.takeWhile p).length
  firstSome (fun n => k (s.take n) (s.drop n)) (List.range (run + 1))

/-- The character class `['"]` of the source regexes. -/
def isQuoteChar (c : Char) : Bool := c = '\'' ∨ c = '"'

/-- Matches `[^>]`. -/
def notGt (c : Char) : Bool := ¬ (c = '>')

/-- Matches `[_A-Za-z0-9]`. -/
def wordChar (c : Char) : Bool := c = '_' ∨ c.isAlpha ∨ c.isDigit

/-- Attempt of `LD_JSON_RE` — the pattern
`<script[^>]+type=["']application/ld\+json["'][^>]*>(.*?)</script>` with
`re.S` — at the current position; returns the group and the input after the
match. -/
def ldTryAt (s : List Char) : Option (List Char × List Char) :=
  match matchLit "<script".data s with
  | none => none
  | some r0 =>
    greedyCls notGt 1 none r0 (fun r1 =>
      match matchLit "type=".data r1 with
      | none => none
      | some r2 =>
        match r2 with
        | q1 :: r3 =>
          if isQuoteChar q1 then
            match matchLit "application/ld+json".data r3 with
            | none => none
            | some r4 =>
              match r4 with
              | q2 :: r5 =>
                if isQuoteChar q2 then
                  greedyCls notGt 0 none r5 (fun r6 =>
                    match r6 with
                    | '>' :: r7 =>
                      lazyStarCap (fun _ => true) r7 (fun grp rest =>
                        (matchLit "</script>".data rest).map (fun after => (grp, after)))
                    | _ => none)
                else none
              | [] => none
          else none
        | [] => none)

/-- The suffix alternation of `INLINE_JSON_VAR_RE`. -/
def inlineSuffixes : List (List Char) :=
  ["State".data, "INITIAL_DATA".data, "INITIAL_STATE".data, "__PRELOADED_STATE__".data]

/-- The tail ` *= *({.*?});` of `INLINE_JSON_VAR_RE`: optional spaces, `=`,
optional spaces, then the captured brace-delimited group followed by `;`. -/
def inlineRhs (s : List Char) : Option (List Char × List Char) :=
  greedyCls (fun c => c = ' ') 0 none s (fun r1 =>
    match r1 with
    | '=' :: r2 =>
      greedyCls (fun c => c = ' ') 0 none r2 (fun r3 =>
        match r3 with
        | '\x7b' :: r4 =>
          lazyStarCap (fun _ => true) r4 (fun inner rest =>
            match rest with
            | '\x7d' :: ';' :: after => some ('\x7b' :: (inner ++ ['\x7d']), after)
            | _ => none)
        | _ => none)
    | _ => none)

/-- Attempt of `INLINE_JSON_VAR_RE` — the pattern
`(?:(?:window|window\.)?[_A-Za-z0-9]+(?:State|INITIAL_DATA|INITIAL_STATE|__PRELOADED_STATE__) *= *({.*?});)`
with `re.S` — at the current position. -/
def inlineTryAt (s : List Char) : Option (List Char × List Char) :=
  firstSome (fun pre =>
    match matchLit pre s with
    | none => none
    | some r0 =>
      greedyCls wordChar 1 none r0 (fun r1 =>
        firstSome (fun suf =>
          match matchLit suf r1 with
          | none => none
          | some r2 => inlineRhs r2) inlineSuffixes))
    ["window".data, "window.".data, ([] : List Char)]

/-- The alternation heading `XHR_ENDPOINT_RE`. -/
def xhrTriggers : List (List Char) :=
  ["fetch(".data, "axios.get".data, "axios(".data, "XMLHttpRequest(".data]

/-- The tail `['"]([^'"]{10,200})['"]` of `XHR_ENDPOINT_RE` at the current
position: a quote, a greedy 10–200 run of non-quote characters, a quote. -/
def xhrQuoteGroup (s : List Char) : Option (List Char × List Char) :=
  match s with
  | [] => none
  | q :: rest =>
    if isQuoteChar q then
      let m := (rest.takeWhile (fun c => ¬ isQuoteChar c)).length
      firstSome (fun n =>
        match rest.drop n with
        | c2 :: after => if isQuoteChar c2 then some (rest.take n, after) else none
        | [] => none) (countdown (min m 200) 10)
    else none

/-- The `.*?` between trigger and quoted literal (no `re.S` on this
pattern, so the skipped characters may not include a newline). -/
def xhrAfterTrigger (s : List Char) : Option (List Char × List Char) :=
  lazyStarCap (fun c => ¬ (c = '\n')) s (fun _ rest => xhrQuoteGroup rest)

/-- Attempt of `XHR_ENDPOINT_RE` — the pattern
`(?:(?:fetch\(|axios\.get|axios\(|XMLHttpRequest\().*?['"]([^'"]{10,200})['"])`
with `re.I` — at the current position. -/
def xhrTryAt (s : List Char) : Option (List Char × List Char) :=
  firstSome (fun t =>
    match matchLitCI t s with
    | none => none
    | some rest => xhrAfterTrigger rest) xhrTriggers

/-- Model of `re.finditer` for the fixed patterns above: attempt a match at
each position, emit its group and continue after the match (all three
patterns only ever produce non-empty matches, so the input length is
sufficient fuel). -/
def reScanF (tryAt : List Char → Option (List Char × List Char)) :
    Nat → List Char → List (List Char)
  | 0, _ => []
  | _ + 1, [] => []
  | fuel + 1, c :: rest =>
    match tryAt (c :: rest) with
    | some (grp, after) => grp :: reScanF tryAt fuel after
    | none => reScanF tryAt fuel rest

/-- Group-1 matches of `LD_JSON_RE.finditer(html)`. -/
def ldGroups (html : String) : List (List Char) := reScanF ldTryAt html.length html.data

/-- Group-1 matches of `INLINE_JSON_VAR_RE.finditer(html)`. -/
def inlineGroups (html : String) : List (List Char) :=
  reScanF inlineTryAt html.length html.data

/-- Group-1 matches of `XHR_ENDPOINT_RE.finditer(html)`. -/
def xhrGroups (html : String) : List (List Char) := reScanF xhrTryAt html.length html.data

/-- Embedding of `extract_ld_json`'s loop body: parse each group, append on
success, `continue` on a parse exception. -/
def ldLoop : List (List Char) → List PyJson
  | [] => []
  | txt :: rest =>
    match jsonLoads (String.mk txt) with
    | some payload => payload :: ldLoop rest
    | none => ldLoop rest

/-- Embedding of `extract_ld_json`. -/
def extract_ld_json (html : String) : List PyJson := ldLoop (ldGroups html)

/-- Embedding of `extract_inline_json`'s loop body: return the first group
that parses, retrying once with the trailing-comma corrective pass, and
`continue` to the next match when both parses raise. -/
def inlineLoop : List (List Char) → Option PyJson
  | [] => none
  | txt :: rest =>
    match jsonLoads (String.mk txt) with
    | some v => some v
    | none =>
      match jsonLoads (stripTrailingCommas (String.mk txt)) with
      | some v => some v
      | none => inlineLoop rest

/-- Embedding of `extract_inline_json`. -/
def extract_inline_json (html : String) : Option PyJson := inlineLoop (inlineGroups html)

/-- Result of the `urlparse` model. -/
structure UrlParts where
  scheme : String
  netloc : String
  path : String

/-- Locate the first occurrence of `sep` in `cs`, returning the pieces
before and after it. -/
def splitFirst (sep : List Char) : List Char → Option (List Char × List Char)
  | [] => (matchLit sep []).map (fun r => ([], r))
  | c :: cs =>
    match matchLit sep (c :: cs) with
    | some r => some ([], r)
    | none => (splitFirst sep cs).map (fun p => (c :: p.1, p.2))

/-- Model of `urllib.parse.urlparse` restricted to the shapes the pipeline
uses (absolute `scheme://netloc/path` URLs; query/fragment are cut off the
path; no URL here carries params).  Only `netloc` and `path` are consumed by
the source. -/
def urlparseModel (url : String) : UrlParts :=
  match splitFirst "://".data url.data with
  | some (sch, rest) =>
    let netloc := rest.takeWhile (fun c => ¬ (c = '/' ∨ c = '?' ∨ c = '#'))
    let tail := rest.drop netloc.length
    let path := tail.takeWhile (fun c => ¬ (c = '?' ∨ c = '#'))
    ⟨String.mk sch, String.mk netloc, String.mk path⟩
  | none => ⟨"", "", String.mk (url.data.takeWhile (fun c => ¬ (c = '?' ∨ c = '#')))⟩

/-- Model of `urllib.parse.urljoin` for the references the pipeline feeds
it (the source only joins candidates that start with `/`): a
protocol-relative `//host/..` reference keeps only the base scheme, a
root-relative `/..` reference keeps scheme and netloc. -/
def urljoinModel (base uri : String) : String :=
  let p := urlparseModel base
  match uri.data with
  | '/' :: '/' :: _ => p.scheme ++ ":" ++ uri
  | _ => p.scheme ++ "://" ++ p.netloc ++ uri

/-- Absolutization of one discovered endpoint (the loop body of
`find_xhr_candidates`): a root-relative URI — `uri.startswith("/")` is a
test on the first character — is joined onto the base URL. -/
def xhrResolve (base_url : String) (g : List Char) : String :=
  match g with
  | '/' :: _ => urljoinModel base_url (String.mk g)
  | _ => String.mk g

/-- Embedding of `find_xhr_candidates`: every group-1 match, made absolute
against `base_url` when root-relative. -/
def find_xhr_candidates (html base_url : String) : List String :=
  (xhrGroups html).map (xhrResolve base_url)

/-- Model of `re.sub(r'^[^(]*\(\s*', '', txt)` in `fetch_json_api`'s JSONP
unwrap: remove one leading `identifier(` (with following whitespace) if
present. -/
def jsonpStripHead (cs : List Char) : List Char :=
  let pre := cs.takeWhile (fun c => ¬ (c = '('))
  match cs.drop pre.length with
  | '(' :: r => r.dropWhile isPyWs
  | _ => cs

/-- Model of `re.sub(r'\)\s*;?$', '', j)`: delete the leftmost `)` that is
followed only by whitespace and an optional final `;`. -/
def jsonpStripTail : List Char → List Char
  | [] => []
  | c :: rest =>
    if c = ')' ∧ ((rest.dropWhile isPyWs) = [] ∨ (rest.dropWhile isPyWs) = [';'])
    then []
    else c :: jsonpStripTail rest

/-- Oracle for one render-capability invocation (`crawler.arun`): the
attributes of the returned `CrawlResult` the pipeline reads. -/
structure CrawlResult where
  success : Bool
  html : String
  content : String
  screenshot : Option Screenshot

/-- A screenshot attribute: either a base64 `str` or raw bytes (bytes are
modelled as an opaque string). -/
inductive Screenshot where
  | strB64 (s : String) : Screenshot
  | bytes (b : String) : Screenshot

/-- The oracles a single `process_url` invocation consumes: the plain
fetch, the JSON-API responses, the two steps of the render capability
(browser-context setup, then the `crawler.arun` call), base64 decoding and
the SHA-1 short hash.  `Except.error` models a raised exception.
`awcSetup` stands for the code of `heavy_render` before its `try` block:
config construction, `AsyncWebCrawler(config=...)` and the context entry
(browser launch). -/
structure World where
  fetchHtml : Except String (Nat × String × String)
  apiResponse : String → Except String String
  awcSetup : Except String Unit
  arun : Except String CrawlResult
  b64decode : String → Option String
  sha1hex10 : String → String

/-- Embedding of `fetch_json_api`: fetch the endpoint text, parse it as
JSON, falling back to the JSONP-unwrap heuristic; `none` models an
exception escaping all three tenacity attempts (the retries collapse under
a deterministic response oracle, so one attempt is modelled). -/
def fetch_json_api (w : World) (api_url : String) : Option PyJson :=
  match w.apiResponse api_url with
  | Except.error _ => none
  | Except.ok txt =>
    match jsonLoads txt with
    | some v => some v
    | none => jsonLoads (String.mk (jsonpStripTail (jsonpStripHead txt.data)))

/-- Acquisition/release events on the heavy semaphore. -/
inductive SemEvent where
  | acquireHeavy : SemEvent
  | releaseHeavy : SemEvent
deriving DecidableEq

/-- Embedding of `heavy_render`: inside `heavy_sem`, set up the browser
context (`awcSetup`: config construction, `AsyncWebCrawler(...)` and its
context entry) — this part sits OUTSIDE the source `try`, so an exception
here propagates out of `heavy_render` (`Except.error`); then invoke
`crawler.arun` — this call and the attribute reads are inside the `try`,
so an exception here is caught and converted to `(None, "", None)`.  The
first component records the semaphore events of the `async with heavy_sem`
block, which releases the semaphore on every path, exceptions included
(context exit is assumed not to raise). -/
def heavy_render (w : World) :
    List SemEvent × Except String (Option CrawlResult × String × Option Screenshot) :=
  ([SemEvent.acquireHeavy, SemEvent.releaseHeavy],
    match w.awcSetup with
    | Except.error e => Except.error e
    | Except.ok _ =>
      match w.arun with
      | Except.ok res =>
        Except.ok (some res,
          (if ¬ (res.html = "") then res.html
           else if ¬ (res.content = "") then res.content else ""),
          res.screenshot)
      | Except.error _ => Except.ok (none, "", none))

/-- Embedding of `safe_filename_for_url` (the SHA-1 short hash comes from
the world oracle). -/
def safe_filename_for_url (w : World) (url : String) : String :=
  let p := urlparseModel url
  let base :=
    if ¬ (p.netloc ++ p.path = "") then p.netloc ++ p.path
    else if ¬ (p.netloc = "") then p.netloc
    else "page"
  let safe := String.mk
    ((base.data.map (fun ch =>
      if ch.isAlphanum ∨ ch = '.' ∨ ch = '_' ∨ ch = '-' then ch else '_')).take 200)
  safe ++ "_" ++ w.sha1hex10 url ++ ".html"

/-- One line of `manifest.jsonl` (the fields the pipeline writes;
`start`/`elapsed` timestamps are omitted from the model). -/
structure ManifestRecord where
  url : String
  httpStatus : Option Nat
  finalUrl : Option String
  stage : String
  ok : Bool
  path : Option String
  api : Option String
  err : Option String

/-- An artifact file written under `out2/<domain>/`. -/
inductive Artifact where
  | fastJson (ld : List PyJson) (inl : Option PyJson) : Artifact
  | apiJson (v : PyJson) : Artifact
  | renderedHtml (html : String) : Artifact
  | screenshotPng (b : String) : Artifact
  | failedHtml (truncated : String) : Artifact

/-- Everything one `process_url` invocation writes or does: manifest lines
appended, artifact files written, API candidates actually probed, heavy
semaphore events. -/
structure Trace where
  records : List ManifestRecord
  artifacts : List (String × Artifact)
  probed : List String
  semEvents : List SemEvent

/-- Truthiness of `extract_inline_json`'s result in `if ld or inline:`. -/
def optJsonTruthy : Option PyJson → Bool
  | none => false
  | some v => v.truthy

/-- Truthiness of the screenshot value in `if screenshot:`. -/
def shotTruthy : Option Screenshot → Bool
  | none => false
  | some (.strB64 s) => ¬ (s = "")
  | some (.bytes b) => ¬ (b = "")

/-- The render-acceptance test of step 4 of `process_url`:
`res and getattr(res, "success", False) and rendered_html and
len(rendered_html) > 2000` (any returned result object is truthy; the
rendered HTML must be non-empty and longer than 2000 characters). -/
def renderOk (res? : Option CrawlResult) (renderedHtml : String) : Bool :=
  match res? with
  | some res =>
    res.success && (!(renderedHtml == "")) && decide (2000 < renderedHtml.length)
  | none => false

/-- A world whose fetched page embeds one valid structured-data block and
whose other capabilities all fail; exercises the fast-json stage. -/
def wFastJson : World :=
  { fetchHtml := Except.ok (200,
      "<script type=\"application/ld+json\">true</script>", "http://a.com/x"),
    apiResponse := fun _ => Except.error "network down",
    awcSetup := Except.ok (),
    arun := Except.error "render down",
    b64decode := fun _ => none,
    sha1hex10 := fun _ => "0000000000" }

/-- A world whose fetched page reveals two API endpoints: the first
endpoint answers with the JSON text of an empty object (parseable but
falsy), the second with a truthy object. -/
def wTwoApis : World :=
  { fetchHtml := Except.ok (200,
      "fetch(\"/api/aaaaaaaaaa\");fetch(\"/api/bbbbbbbbbb\")", "http://x.com/p"),
    apiResponse := fun a =>
      if a = "http://x.com/api/aaaaaaaaaa" then Except.ok "\x7b\x7d"
      else Except.ok "\x7b\"a\":1\x7d",
    awcSetup := Except.ok (),
    arun := Except.error "render down",
    b64decode := fun _ => none,
    sha1hex10 := fun _ => "0000000000" }

/-- A world with no fast-path content, no API candidates, a browser
context that opens fine and a failing `crawler.arun`; exercises the failed
terminal stage. -/
def wRenderFail : World :=
  { fetchHtml := Except.ok (403, "<p>blocked</p>", "http://b.com/q"),
    apiResponse := fun _ => Except.error "network down",
    awcSetup := Except.ok (),
    arun := Except.error "render down",
    b64decode := fun _ => none,
    sha1hex10 := fun _ => "1111111111" }

/-- A world with no fast-path content, no API candidates, and a browser
launch that raises during context setup; exercises the exception that
escapes `heavy_render`. -/
def wSetupFail : World :=
  { fetchHtml := Except.ok (403, "<p>blocked</p>", "http://b.com/q"),
    apiResponse := fun _ => Except.error "network down",
    awcSetup := Except.error "browser launch failed",
    arun := Except.error "render down",
    b64decode := fun _ => none,
    sha1hex10 := fun _ => "1111111111" }

/-- Embedding of the candidate loop of `process_url` step 3: probe each
candidate with `fetch_json_api`; an exception is caught and the loop
continues; a falsy JSON result (`if api_json:`) also falls through to the
next candidate.  Returns the candidates probed and the winning
candidate/payload, if any. -/
def probeLoop (w : World) : List String → List String × Option (String × PyJson)
  | [] => ([], none)
  | c :: cs =>
    match fetch_json_api w c with
    | none =>
      let r := probeLoop w cs
      (c :: r.1, r.2)
    | some v =>
      if v.truthy then ([c], some (c, v))
      else
        let r := probeLoop w cs
        (c :: r.1, r.2)

/-- The screenshot write of the heavy branch: decode a `str` screenshot
from base64 (an exception is swallowed by `except: pass`), write bytes as
`<name>.png`. -/
def screenshotWrites (w : World) (dir fname : String) (shot : Option Screenshot) :
    List (String × Artifact) :=
  if shotTruthy shot then
    match shot with
    | some (.strB64 s) =>
      match w.b64decode s with
      | some b => [(dir ++ "/" ++ String.replace fname ".html" ".png", Artifact.screenshotPng b)]
      | none => []
    | some (.bytes b) =>
      [(dir ++ "/" ++ String.replace fname ".html" ".png", Artifact.screenshotPng b)]
    | none => []
  else []

/-- Embedding of `process_url`: the per-URL escalation pipeline, producing
the trace of manifest lines, artifacts, probed candidates and heavy
semaphore events.  The domain and global semaphores wrap the whole body
(their concurrency behavior is modelled separately by `DomStep`); the
filesystem writes are assumed not to raise. -/
def process_url (w : World) (url : String) : Trace :=
  let domain := (urlparseModel url).netloc
  let dir := "out2/" ++ domain
  match w.fetchHtml with
  | Except.error e =>
    { records := [{ url := url, httpStatus := none, finalUrl := none,
                    stage := "exception", ok := false, path := none, api := none,
                    err := some e }],
      artifacts := [], probed := [], semEvents := [] }
  | Except.ok (st, html, finalUrl) =>
    let ld := extract_ld_json html
    let inl := extract_inline_json html
    let fname := safe_filename_for_url w url
    if ¬ ld.isEmpty ∨ optJsonTruthy inl then
      { records := [{ url := url, httpStatus := some st, finalUrl := some finalUrl,
                      stage := "fast-json", ok := true, path := some (dir ++ "/" ++ fname),
                      api := none, err := none }],
        artifacts := [(dir ++ "/" ++ fname, Artifact.fastJson ld inl)],
        probed := [], semEvents := [] }
    else
      let candidates := find_xhr_candidates html finalUrl
      match probeLoop w candidates with
      | (probed, some (c, apiJson)) =>
        { records := [{ url := url, httpStatus := some st, finalUrl := some finalUrl,
                        stage := "fast-api", ok := true, path := some (dir ++ "/" ++ fname),
                        api := some c, err := none }],
          artifacts := [(dir ++ "/" ++ fname, Artifact.apiJson apiJson)],
          probed := probed, semEvents := [] }
      | (probed, none) =>
        match heavy_render w with
        | (events, Except.error e) =>
          { records := [{ url := url, httpStatus := some st, finalUrl := some finalUrl,
                          stage := "exception", ok := false, path := none, api := none,
                          err := some e }],
            artifacts := [], probed := probed, semEvents := events }
        | (events, Except.ok (res?, renderedHtml, shot)) =>
        if renderOk res? renderedHtml then
          { records := [{ url := url, httpStatus := some st, finalUrl := some finalUrl,
                          stage := "heavy", ok := true, path := some (dir ++ "/" ++ fname),
                          api := none, err := none }],
            artifacts := (dir ++ "/" ++ fname, Artifact.renderedHtml renderedHtml)
              :: screenshotWrites w dir fname shot,
            probed := probed, semEvents := events }
        else
          { records := [{ url := url, httpStatus := some st, finalUrl := some finalUrl,
                          stage := "failed", ok := false, path := none, api := none,
                          err := some "no content" }],
            artifacts := [(dir ++ "/failed_" ++ fname, Artifact.failedHtml (String.mk (html.data.take 4000)))],
            probed := probed, semEvents := events }

/-- Per-domain capacity `PER_DOMAIN_LIMIT` of the source configuration. -/
def PER_DOMAIN_LIMIT : Nat := 3

/-- Where a task stands relative to its domain semaphore: before
`async with domain_locks[domain]`, inside it, or finished. -/
inductive TaskPhase where
  | idle : TaskPhase
  | critical : TaskPhase
  | done : TaskPhase
deriving DecidableEq

/-- State of the per-domain limiters (`domain_locks`, a defaultdict of
semaphores of capacity `PER_DOMAIN_LIMIT`) together with the phase of every
dispatched task.  The counter function models each domain's semaphore
value; the defaultdict's lazily-created entries all start at the limit, so
a total function is faithful. -/
structure DomState where
  counter : String → Nat
  tasks : List (String × TaskPhase)

/-- Whether a task entry belongs to domain `d` and sits inside the critical
section. -/
def critP (d : String) (p : String × TaskPhase) : Bool :=
  decide (p.1 = d) && decide (p.2 = TaskPhase.critical)

/-- Number of tasks of domain `d` currently inside the domain-semaphore
critical section. -/
def inCritical (s : DomState) (d : String) : Nat := s.tasks.countP (critP d)

/-- Interleaving semantics of the domain semaphores: any idle task may
acquire its domain's semaphore when capacity remains, and any task in the
critical section may leave and release.  Cooperative scheduling only
restricts which interleavings occur; the invariant below holds for all of
them. -/
inductive DomStep : DomState → DomState → Prop where
  | acquire (s : DomState) (i : Nat) (d : String) :
      s.tasks[i]? = some (d, TaskPhase.idle) →
      0 < s.counter d →
      DomStep s ⟨fun e => if e = d then s.counter d - 1 else s.counter e,
                 s.tasks.set i (d, TaskPhase.critical)⟩
  | release (s : DomState) (i : Nat) (d : String) :
      s.tasks[i]? = some (d, TaskPhase.critical) →
      DomStep s ⟨fun e => if e = d then s.counter d + 1 else s.counter e,
                 s.tasks.set i (d, TaskPhase.done)⟩

/-- Initial state for one run: every semaphore at full capacity, one idle
task per submitted URL (represented by its domain). -/
def initDom (doms : List String) : DomState :=
  ⟨fun _ => PER_DOMAIN_LIMIT, doms.map (fun d => (d, TaskPhase.idle))⟩

/-- States reachable by any interleaving of acquires and releases. -/
inductive DomReachable (doms : List String) : DomState → Prop where
  | init : DomReachable doms (initDom doms)
  | step {s s' : DomState} : DomReachable doms s → DomStep s s' → DomReachable doms s'

/-- Counting a predicate across a point update of a list. -/
theorem countP_set_eq (p : String × TaskPhase → Bool) :
    ∀ (l : List (String × TaskPhase)) (i : Nat) (a b : String × TaskPhase),
      l[i]? = some a →
      (l.set i b).countP p + (if p a then 1 else 0)
        = l.countP p + (if p b then 1 else 0) := by
  intro l
  induction l with
  | nil => intro i a b h; simp at h
  | cons x xs ih =>
    intro i a b h
    cases i with
    | zero =>
      simp only [List.getElem?_cons_zero, Option.some.injEq] at h
      subst h
      simp [List.countP_cons]
      omega
    | succ j =>
      simp only [List.getElem?_cons_succ] at h
      have := ih j a b h
      simp [List.countP_cons]
      omega

/-- Preservation of the semaphore accounting equation by one step. -/
theorem dom_step_preserves {s s' : DomState} (hstep : DomStep s s') (d : String)
    (ih : s.counter d + inCritical s d = PER_DOMAIN_LIMIT) :
    s'.counter d + inCritical s' d = PER_DOMAIN_LIMIT := by
  cases hstep with
  | acquire i d0 hget hpos =>
    unfold inCritical at ih ⊢
    dsimp only
    have hc := countP_set_eq (critP d)
      s.tasks i (d0, TaskPhase.idle) (d0, TaskPhase.critical) hget
    have ha : critP d (d0, TaskPhase.idle) = false := by simp [critP]
    have hb : critP d (d0, TaskPhase.critical) = decide (d0 = d) := by simp [critP]
    rw [ha, hb] at hc
    by_cases hd : d = d0
    · subst hd
      rw [if_pos rfl]
      simp at hc
      omega
    · rw [if_neg hd]
      have hne : ¬ (d0 = d) := fun h => hd h.symm
      simp [hne] at hc
      omega
  | release i d0 hget =>
    unfold inCritical at ih ⊢
    dsimp only
    have hc := countP_set_eq (critP d)
      s.tasks i (d0, TaskPhase.critical) (d0, TaskPhase.done) hget
    have ha : critP d (d0, TaskPhase.critical) = decide (d0 = d) := by simp [critP]
    have hb : critP d (d0, TaskPhase.done) = false := by simp [critP]
    rw [ha, hb] at hc
    by_cases hd : d = d0
    · subst hd
      rw [if_pos rfl]
      simp at hc
      omega
    · rw [if_neg hd]
      have hne : ¬ (d0 = d) := fun h => hd h.symm
      simp [hne] at hc
      omega

/-- The semaphore invariant: for every domain, the semaphore value plus the
number of tasks inside the critical section equals the configured
capacity. -/
theorem dom_invariant {doms : List String} {s : DomState}
    (h : DomReachable doms s) (d : String) :
    s.counter d + inCritical s d = PER_DOMAIN_LIMIT := by
  induction h with
  | init =>
    unfold initDom inCritical
    dsimp only
    have hz : (doms.map (fun e => (e, TaskPhase.idle))).countP (critP d) = 0 := by
      rw [List.countP_eq_zero]
      intro a ha
      rcases List.mem_map.mp ha with ⟨e, _, rfl⟩
      simp [critP]
    omega
  | step _ hstep ih => exact dom_step_preserves hstep d ih

/-- First-success extraction over `firstSome`. -/
theorem firstSome_eq_some {α β : Type} (f : α → Option β) :
    ∀ (l : List α) (b : β), firstSome f l = some b → ∃ x ∈ l, f x = some b := by
  intro l
  induction l with
  | nil => intro b h; simp [firstSome] at h
  | cons x xs ih =>
    intro b h
    unfold firstSome at h
    cases hx : f x with
    | some b0 =>
      rw [hx] at h
      exact ⟨x, List.mem_cons_self x xs, hx.trans h⟩
    | none =>
      rw [hx] at h
      rcases ih b h with ⟨y, hy, hfy⟩
      exact ⟨y, List.mem_cons_of_mem x hy, hfy⟩

/-- Membership bounds for the greedy backtracking count list. -/
theorem mem_countdown {a b n : Nat} (h : n ∈ countdown a b) : b ≤ n ∧ n ≤ a := by
  unfold countdown at h
  rcases List.mem_map.mp h with ⟨k, hk, rfl⟩
  rw [List.mem_range] at hk
  omega

/-- Any group produced by the quoted-literal tail of `XHR_ENDPOINT_RE` has
between 10 and 200 characters. -/
theorem xhrQuoteGroup_bounds {s grp after : List Char}
    (h : xhrQuoteGroup s = some (grp, after)) :
    10 ≤ grp.length ∧ grp.length ≤ 200 := by
  unfold xhrQuoteGroup at h
  cases s with
  | nil => simp at h
  | cons q rest =>
    dsimp only at h
    by_cases hq : isQuoteChar q = true
    · rw [if_pos hq] at h
      rcases firstSome_eq_some _ _ _ h with ⟨n, hn, hfn⟩
      rcases mem_countdown hn with ⟨hlo, hhi⟩
      have hm : min ((rest.takeWhile (fun c => ¬ isQuoteChar c)).length) 200
          ≤ rest.length := by
        have hpre : (rest.takeWhile (fun c => ¬ isQuoteChar c)).length ≤ rest.length :=
          (List.takeWhile_prefix _).length_le
        exact le_trans (min_le_left _ _) hpre
      cases hdrop : rest.drop n with
      | nil => rw [hdrop] at hfn; simp at hfn
      | cons c2 after2 =>
        rw [hdrop] at hfn
        dsimp only at hfn
        by_cases hc2 : isQuoteChar c2 = true
        · rw [if_pos hc2] at hfn
          have hg : grp = rest.take n := by
            have := Option.some.inj hfn
            exact (congrArg Prod.fst this).symm
          subst hg
          rw [List.length_take]
          omega
        · rw [if_neg hc2] at hfn; exact absurd hfn (by simp)
    · rw [if_neg hq] at h; exact absurd h (by simp)

/-- The bound carries through the lazy-skip stage of `XHR_ENDPOINT_RE`. -/
theorem xhrAfterTrigger_bounds {s grp after : List Char}
    (h : xhrAfterTrigger s = some (grp, after)) :
    10 ≤ grp.length ∧ grp.length ≤ 200 := by
  unfold xhrAfterTrigger lazyStarCap at h
  rcases firstSome_eq_some _ _ _ h with ⟨n, _, hfn⟩
  exact xhrQuoteGroup_bounds hfn

/-- The bound carries through the trigger alternation of `XHR_ENDPOINT_RE`. -/
theorem xhrTryAt_bounds {s grp after : List Char}
    (h : xhrTryAt s = some (grp, after)) :
    10 ≤ grp.length ∧ grp.length ≤ 200 := by
  unfold xhrTryAt at h
  rcases firstSome_eq_some _ _ _ h with ⟨t, _, hft⟩
  cases hm : matchLitCI t s with
  | none => rw [hm] at hft; exact absurd hft (by simp)
  | some rest => rw [hm] at hft; exact xhrAfterTrigger_bounds hft

/-- Every group emitted by the finditer scan comes from one successful
attempt of the pattern. -/
theorem reScanF_mem {tryAt : List Char → Option (List Char × List Char)} :
    ∀ (fuel : Nat) (s : List Char) (g : List Char), g ∈ reScanF tryAt fuel s →
      ∃ s0 after, tryAt s0 = some (g, after) := by
  intro fuel
  induction fuel with
  | zero => intro s g h; simp [reScanF] at h
  | succ n ih =>
    intro s g h
    cases s with
    | nil => simp [reScanF] at h
    | cons c rest =>
      unfold reScanF at h
      cases ht : tryAt (c :: rest) with
      | some p =>
        rw [ht] at h
        rcases List.mem_cons.mp h with rfl | h2
        · exact ⟨c :: rest, p.2, by rw [ht]⟩
        · exact ih p.2 g h2
      | none =>
        rw [ht] at h
        exact ih rest g h

/-- C10: every URL reported by `find_xhr_candidates` originates from a
quoted string literal of 10 to 200 characters matched in the markup; a
shorter or longer first string-literal argument is never reported. -/
theorem find_xhr_candidates_literal_length_bounds
    (html base_url u : String) (hu : u ∈ find_xhr_candidates html base_url) :
    ∃ g ∈ xhrGroups html,
      10 ≤ g.length ∧ g.length ≤ 200 ∧ u = xhrResolve base_url g := by
  unfold find_xhr_candidates at hu
  rcases List.mem_map.mp hu with ⟨g, hg, rfl⟩
  have hb : 10 ≤ g.length ∧ g.length ≤ 200 := by
    unfold xhrGroups at hg
    rcases reScanF_mem html.length html.data g hg with ⟨s0, after, h0⟩
    exact xhrTryAt_bounds h0
  exact ⟨g, hg, hb.1, hb.2, rfl⟩

/-- C9: for any domain, the number of tasks simultaneously inside that
domain's limiter (between acquire and release) never exceeds the
configured per-domain capacity, in every reachable interleaving of
concurrently running tasks. -/
theorem domain_limit_never_exceeded {doms : List String} {s : DomState}
    (h : DomReachable doms s) (d : String) :
    inCritical s d ≤ PER_DOMAIN_LIMIT := by
  have hinv := dom_invariant h d
  omega

theorem domain_limit_never_exceeded_witness :
    inCritical (initDom ["a.com", "a.com", "a.com", "a.com", "a.com"]) "a.com"
      ≤ PER_DOMAIN_LIMIT :=
  domain_limit_never_exceeded DomReachable.init "a.com"

/-- C1: every terminal path of `process_url` (fast-json, fast-api, heavy,
failed, exception) appends exactly one manifest record. -/
theorem process_url_one_manifest_record (w : World) (url : String) :
    (process_url w url).records.length = 1 := by
  unfold process_url
  cases w.fetchHtml with
  | error e => rfl
  | ok t =>
    obtain ⟨st, html, finalUrl⟩ := t
    dsimp only
    split
    · rfl
    · split
      · rfl
      · split
        · rfl
        · split <;> rfl

/-- Branch analysis for the heavy-limiter claim: every run either records
no fast stage at all, or performed no heavy-semaphore events. -/
theorem process_url_fast_no_heavy_aux (w : World) (url : String) :
    (∀ r ∈ (process_url w url).records,
        ¬ (r.stage = "fast-json" ∨ r.stage = "fast-api"))
    ∨ (process_url w url).semEvents = [] := by
  unfold process_url
  cases w.fetchHtml with
  | error e =>
    left
    intro r hr
    simp only [List.mem_singleton] at hr
    subst hr
    simp
  | ok t =>
    obtain ⟨st, html, finalUrl⟩ := t
    dsimp only
    split
    · right; rfl
    · split
      · right; rfl
      · split
        · left
          intro r hr
          simp only [List.mem_singleton] at hr
          subst hr
          simp
        · split
          · left
            intro r hr
            simp only [List.mem_singleton] at hr
            subst hr
            simp
          · left
            intro r hr
            simp only [List.mem_singleton] at hr
            subst hr
            simp

/-- C7: the heavy-resource limiter is never acquired by a task that
terminates at the fast-json or fast-api stage: if such a stage is recorded,
the run performed no heavy-semaphore acquisition (`heavy_render` was not
invoked). -/
theorem heavy_sem_not_acquired_on_fast_stage (w : World) (url : String)
    (r : ManifestRecord) (hr : r ∈ (process_url w url).records)
    (hstage : r.stage = "fast-json" ∨ r.stage = "fast-api") :
    SemEvent.acquireHeavy ∉ (process_url w url).semEvents := by
  rcases process_url_fast_no_heavy_aux w url with hall | hnone
  · exact absurd hstage (hall r hr)
  · rw [hnone]
    exact List.not_mem_nil _

/-- C8 counterexample: an exception raised while setting up the browser
context (construction and entry of `AsyncWebCrawler`, part of the wrapped
render capability but outside the source `try`) propagates out of
`heavy_render` instead of being converted to a failure triple; the
surrounding pipeline only catches it at the task level and records stage
"exception", not "failed". -/
theorem heavy_render_setup_exception_propagates :
    (heavy_render wSetupFail).2 = Except.error "browser launch failed"
    ∧ (process_url wSetupFail "http://b.com/q").records.map
        (fun r => (r.stage, r.ok, r.err))
      = [("exception", false, some "browser launch failed")] :=
  ⟨rfl, rfl⟩

/-- C8 (amended): an exception raised by the render invocation itself —
the `crawler.arun` call inside the adapter `try` block — is caught by
`heavy_render` and converted to the failure triple `(None, "", None)`
instead of propagating; an exception raised while constructing or entering
the browser context, which precedes the `try`, propagates out of the
adapter to the task-level handler. -/
theorem heavy_render_catches_arun_exception (w : World) (e : String)
    (hsetup : w.awcSetup = Except.ok ()) (h : w.arun = Except.error e) :
    (heavy_render w).2 = Except.ok (none, "", none) := by
  unfold heavy_render
  rw [hsetup, h]

/-- The ld+json loop keeps exactly the groups that parse, in order. -/
theorem ldLoop_eq_filterMap (gs : List (List Char)) :
    ldLoop gs = gs.filterMap (fun txt => jsonLoads (String.mk txt)) := by
  induction gs with
  | nil => rfl
  | cons txt rest ih =>
    unfold ldLoop
    cases h : jsonLoads (String.mk txt) <;> simp [h, ih]

/-- C4: `extract_ld_json` parses each structured-data block independently,
silently skips any block that fails to parse, and yields the empty
sequence (never an error) when no block matches: its result is exactly the
parseable blocks, in order. -/
theorem extract_ld_json_skips_unparseable_blocks (html : String) :
    extract_ld_json html
      = (ldGroups html).filterMap (fun txt => jsonLoads (String.mk txt)) := by
  unfold extract_ld_json
  exact ldLoop_eq_filterMap (ldGroups html)

/-- The inline loop returns the payload of the first group that parses
(directly or after the corrective pass), given that every earlier group
fails both parses. -/
theorem inlineLoop_first_success (gs : List (List Char)) (i : Nat)
    (txt : List Char) (v : PyJson) (hget : gs[i]? = some txt)
    (hearlier : ∀ j, j < i → ∀ tj, gs[j]? = some tj →
        jsonLoads (String.mk tj) = none
        ∧ jsonLoads (stripTrailingCommas (String.mk tj)) = none)
    (hparse : jsonLoads (String.mk txt) = some v
        ∨ (jsonLoads (String.mk txt) = none
           ∧ jsonLoads (stripTrailingCommas (String.mk txt)) = some v)) :
    inlineLoop gs = some v := by
  induction gs generalizing i with
  | nil => simp at hget
  | cons g rest ih =>
    cases i with
    | zero =>
      simp only [List.getElem?_cons_zero, Option.some.injEq] at hget
      subst hget
      unfold inlineLoop
      rcases hparse with h1 | ⟨h1, h2⟩
      · rw [h1]
      · rw [h1, h2]
    | succ j =>
      have h0 := hearlier 0 (Nat.succ_pos j) g (by simp)
      unfold inlineLoop
      rw [h0.1, h0.2]
      simp only [List.getElem?_cons_succ] at hget
      exact ih j hget
        (fun j2 hj2 tj htj => hearlier (j2 + 1) (Nat.succ_lt_succ hj2) tj (by simpa using htj))

/-- C3 counterexample: on this page the first inline-state match fails to
parse even after the corrective pass, yet `extract_inline_json` goes on to
the next match and returns its payload instead of returning nothing. -/
theorem extract_inline_json_tries_later_matches :
    (inlineGroups "aState = \x7b,,\x7d; bState = \x7b\"a\":1\x7d;")[0]?
        = some "\x7b,,\x7d".data
    ∧ jsonLoads "\x7b,,\x7d" = none
    ∧ jsonLoads (stripTrailingCommas "\x7b,,\x7d") = none
    ∧ extract_inline_json "aState = \x7b,,\x7d; bState = \x7b\"a\":1\x7d;"
        = some (PyJson.obj [("a", PyJson.num 1 0)]) :=
  ⟨rfl, rfl, rfl, rfl⟩

/-- C3 (amended): `extract_inline_json` returns at most one payload; the
matches are attempted in document order, a match whose right-hand side
fails to parse even after the trailing-comma corrective pass is skipped,
and the first match that does parse (directly or after the pass) supplies
the returned payload. -/
theorem extract_inline_json_first_success_wins (html : String) (i : Nat)
    (txt : List Char) (v : PyJson) (hget : (inlineGroups html)[i]? = some txt)
    (hearlier : ∀ j, j < i → ∀ tj, (inlineGroups html)[j]? = some tj →
        jsonLoads (String.mk tj) = none
        ∧ jsonLoads (stripTrailingCommas (String.mk tj)) = none)
    (hparse : jsonLoads (String.mk txt) = some v
        ∨ (jsonLoads (String.mk txt) = none
           ∧ jsonLoads (stripTrailingCommas (String.mk txt)) = some v)) :
    extract_inline_json html = some v := by
  unfold extract_inline_json
  exact inlineLoop_first_success (inlineGroups html) i txt v hget hearlier hparse

theorem extract_inline_json_first_success_wins_witness :
    extract_inline_json "aState = \x7b,,\x7d; bState = \x7b\"a\":1\x7d;"
      = some (PyJson.obj [("a", PyJson.num 1 0)]) := by
  apply extract_inline_json_first_success_wins
      "aState = \x7b,,\x7d; bState = \x7b\"a\":1\x7d;" 1 "\x7b\"a\":1\x7d".data
      (PyJson.obj [("a", PyJson.num 1 0)]) rfl
  · intro j hj tj htj
    have hj0 : j = 0 := by omega
    subst hj0
    have h0 : (inlineGroups "aState = \x7b,,\x7d; bState = \x7b\"a\":1\x7d;")[0]?
        = some "\x7b,,\x7d".data := rfl
    rw [h0] at htj
    have htj2 := Option.some.inj htj
    subst htj2
    exact ⟨rfl, rfl⟩
  · exact Or.inl rfl

/-- C5: when the first inline-state right-hand side is valid JSON except
that it fails to parse as found but parses after the single corrective
pass stripping trailing commas before closing brackets,
`extract_inline_json` recovers and returns the corrected payload. -/
theorem extract_inline_json_recovers_trailing_comma (html : String)
    (txt : List Char) (v : PyJson)
    (hfirst : (inlineGroups html)[0]? = some txt)
    (hfail : jsonLoads (String.mk txt) = none)
    (hfix : jsonLoads (stripTrailingCommas (String.mk txt)) = some v) :
    extract_inline_json html = some v := by
  unfold extract_inline_json
  exact inlineLoop_first_success (inlineGroups html) 0 txt v hfirst
    (fun j hj _ _ => absurd hj (Nat.not_lt_zero j)) (Or.inr ⟨hfail, hfix⟩)

theorem extract_inline_json_recovers_trailing_comma_witness :
    jsonLoads "\x7b\"a\": 1,\x7d" = none
    ∧ extract_inline_json "window.appState = \x7b\"a\": 1,\x7d;"
        = some (PyJson.obj [("a", PyJson.num 1 0)]) :=
  ⟨rfl, extract_inline_json_recovers_trailing_comma
    "window.appState = \x7b\"a\": 1,\x7d;" "\x7b\"a\": 1,\x7d".data
    (PyJson.obj [("a", PyJson.num 1 0)]) rfl rfl rfl⟩

/-- The probe loop stops at the first candidate that yields a truthy JSON
payload, having probed exactly the candidates up to and including it. -/
theorem probeLoop_first_truthy (w : World) (cs : List String) (i : Nat)
    (c : String) (v : PyJson) (hc : cs[i]? = some c)
    (hearlier : ∀ j, j < i → ∀ cj, cs[j]? = some cj →
        ∀ u, fetch_json_api w cj = some u → u.truthy = false)
    (hv : fetch_json_api w c = some v) (htr : v.truthy = true) :
    probeLoop w cs = (cs.take (i + 1), some (c, v)) := by
  induction cs generalizing i with
  | nil => simp at hc
  | cons c0 rest ih =>
    cases i with
    | zero =>
      simp only [List.getElem?_cons_zero, Option.some.injEq] at hc
      subst hc
      unfold probeLoop
      rw [hv]
      simp only [htr, if_pos]
      simp
    | succ j =>
      unfold probeLoop
      have hstep : probeLoop w rest = (rest.take (j + 1), some (c, v)) := by
        simp only [List.getElem?_cons_succ] at hc
        exact ih j hc
          (fun j2 hj2 cj hcj => hearlier (j2 + 1) (Nat.succ_lt_succ hj2) cj
            (by simpa using hcj))
      cases h0 : fetch_json_api w c0 with
      | none => simp [hstep]
      | some u =>
        have hu : u.truthy = false := hearlier 0 (Nat.succ_pos j) c0 (by simp) u h0
        dsimp only
        rw [hu]
        simp [hstep]

/-- C2 counterexample: the first probed candidate's response parses as
JSON (the empty object), yet the stage does not terminate there — the
remaining candidate is probed and becomes the recorded fast-api endpoint,
because the source tests Python truthiness (`if api_json:`), not
parseability. -/
theorem probe_parseable_json_does_not_terminate :
    fetch_json_api wTwoApis "http://x.com/api/aaaaaaaaaa" = some (PyJson.obj [])
    ∧ (process_url wTwoApis "http://x.com/p").probed
        = ["http://x.com/api/aaaaaaaaaa", "http://x.com/api/bbbbbbbbbb"]
    ∧ (process_url wTwoApis "http://x.com/p").records.map (fun r => (r.stage, r.api))
        = [("fast-api", some "http://x.com/api/bbbbbbbbbb")] :=
  ⟨rfl, rfl, rfl⟩

/-- C2 (amended): candidates are attempted in order and the first
candidate whose response parses as a truthy JSON value terminates the
stage as fast-api: its payload becomes the artifact, its URL is recorded,
and no remaining candidate is probed.  Candidates whose fetch raises or
whose parsed payload is falsy (such as `{}`) are skipped. -/
theorem probe_first_truthy_candidate_wins (w : World) (url : String)
    (st : Nat) (html finalUrl : String) (i : Nat) (c : String) (v : PyJson)
    (hfetch : w.fetchHtml = Except.ok (st, html, finalUrl))
    (hld : (extract_ld_json html).isEmpty = true)
    (hinl : optJsonTruthy (extract_inline_json html) = false)
    (hc : (find_xhr_candidates html finalUrl)[i]? = some c)
    (hearlier : ∀ j, j < i → ∀ cj, (find_xhr_candidates html finalUrl)[j]? = some cj →
        ∀ u, fetch_json_api w cj = some u → u.truthy = false)
    (hv : fetch_json_api w c = some v) (htr : v.truthy = true) :
    (process_url w url).records.map (fun r => (r.stage, r.api, r.ok))
        = [("fast-api", some c, true)]
    ∧ (process_url w url).artifacts.map Prod.snd = [Artifact.apiJson v]
    ∧ (process_url w url).probed = (find_xhr_candidates html finalUrl).take (i + 1) := by
  have hpl := probeLoop_first_truthy w (find_xhr_candidates html finalUrl) i c v
    hc hearlier hv htr
  have hcond : ¬ (¬ (extract_ld_json html).isEmpty = true
      ∨ optJsonTruthy (extract_inline_json html) = true) := by
    rintro (h | h)
    · exact h hld
    · rw [hinl] at h; exact Bool.false_ne_true h
  unfold process_url
  rw [hfetch]
  dsimp only
  rw [if_neg hcond, hpl]
  dsimp only
  exact ⟨rfl, rfl, rfl⟩

theorem probe_first_truthy_candidate_wins_witness :
    (process_url wTwoApis "http://x.com/p").records.map (fun r => (r.stage, r.api, r.ok))
        = [("fast-api", some "http://x.com/api/bbbbbbbbbb", true)]
    ∧ (process_url wTwoApis "http://x.com/p").artifacts.map Prod.snd
        = [Artifact.apiJson (PyJson.obj [("a", PyJson.num 1 0)])]
    ∧ (process_url wTwoApis "http://x.com/p").probed
        = (find_xhr_candidates "fetch(\"/api/aaaaaaaaaa\");fetch(\"/api/bbbbbbbbbb\")"
            "http://x.com/p").take 2 := by
  apply probe_first_truthy_candidate_wins wTwoApis "http://x.com/p" 200
      "fetch(\"/api/aaaaaaaaaa\");fetch(\"/api/bbbbbbbbbb\")" "http://x.com/p" 1
      "http://x.com/api/bbbbbbbbbb" (PyJson.obj [("a", PyJson.num 1 0)])
      rfl rfl rfl rfl
  · intro j hj cj hcj u hu
    have hj0 : j = 0 := by omega
    subst hj0
    have h0 : (find_xhr_candidates
        "fetch(\"/api/aaaaaaaaaa\");fetch(\"/api/bbbbbbbbbb\")" "http://x.com/p")[0]?
        = some "http://x.com/api/aaaaaaaaaa" := rfl
    rw [h0] at hcj
    have hcj2 := Option.some.inj hcj
    subst hcj2
    have hfa : fetch_json_api wTwoApis "http://x.com/api/aaaaaaaaaa"
        = some (PyJson.obj []) := rfl
    rw [hfa] at hu
    have hu2 := Option.some.inj hu
    subst hu2
    rfl
  · rfl
  · rfl

/-- C6: when the render stage's adapter call returns, a successful result
with non-trivial HTML terminates the task as stage "heavy" with the full
rendered HTML as artifact; otherwise the task terminates as stage
"failed" with ok = false and the persisted artifact is a prefix of at
most 4000 characters of the originally fetched HTML. -/
theorem render_stage_outcome (w : World) (url : String) (st : Nat)
    (html finalUrl : String) (events : List SemEvent)
    (res? : Option CrawlResult) (renderedHtml : String) (shot : Option Screenshot)
    (hfetch : w.fetchHtml = Except.ok (st, html, finalUrl))
    (hld : (extract_ld_json html).isEmpty = true)
    (hinl : optJsonTruthy (extract_inline_json html) = false)
    (hprobe : (probeLoop w (find_xhr_candidates html finalUrl)).2 = none)
    (hrender : heavy_render w = (events, Except.ok (res?, renderedHtml, shot))) :
    (renderOk res? renderedHtml = true →
      (process_url w url).records.map (fun r => (r.stage, r.ok)) = [("heavy", true)]
      ∧ ((process_url w url).artifacts.map Prod.snd).head?
          = some (Artifact.renderedHtml renderedHtml))
    ∧ (renderOk res? renderedHtml = false →
      (process_url w url).records.map (fun r => (r.stage, r.ok, r.err))
          = [("failed", false, some "no content")]
      ∧ (process_url w url).artifacts.map Prod.snd
          = [Artifact.failedHtml (String.mk (html.data.take 4000))]
      ∧ (html.data.take 4000).length ≤ 4000
      ∧ html.data.take 4000 <+: html.data) := by
  obtain ⟨P, hP⟩ : ∃ P, probeLoop w (find_xhr_candidates html finalUrl) = (P, none) := by
    rcases hq : probeLoop w (find_xhr_candidates html finalUrl) with ⟨P, r⟩
    rw [hq] at hprobe
    dsimp only at hprobe
    subst hprobe
    exact ⟨P, rfl⟩
  have hcond : ¬ (¬ (extract_ld_json html).isEmpty = true
      ∨ optJsonTruthy (extract_inline_json html) = true) := by
    rintro (h | h)
    · exact h hld
    · rw [hinl] at h; exact Bool.false_ne_true h
  unfold process_url
  rw [hfetch]
  dsimp only
  rw [if_neg hcond, hP]
  dsimp only
  rw [hrender]
  dsimp only
  constructor
  · intro hok
    rw [if_pos hok]
    exact ⟨rfl, rfl⟩
  · intro hok
    rw [if_neg (by rw [hok]; exact Bool.false_ne_true)]
    refine ⟨rfl, rfl, ?_, ?_⟩
    · rw [List.length_take]
      exact min_le_left _ _
    · exact List.take_prefix _ _

theorem render_stage_outcome_witness :
    (renderOk none "" = true →
      (process_url wRenderFail "http://b.com/q").records.map (fun r => (r.stage, r.ok))
          = [("heavy", true)]
      ∧ ((process_url wRenderFail "http://b.com/q").artifacts.map Prod.snd).head?
          = some (Artifact.renderedHtml ""))
    ∧ (renderOk none "" = false →
      (process_url wRenderFail "http://b.com/q").records.map (fun r => (r.stage, r.ok, r.err))
          = [("failed", false, some "no content")]
      ∧ (process_url wRenderFail "http://b.com/q").artifacts.map Prod.snd
          = [Artifact.failedHtml (String.mk (("<p>blocked</p>" : String).data.take 4000))]
      ∧ (("<p>blocked</p>" : String).data.take 4000).length ≤ 4000
      ∧ ("<p>blocked</p>" : String).data.take 4000 <+: ("<p>blocked</p>" : String).data) :=
  render_stage_outcome wRenderFail "http://b.com/q" 403 "<p>blocked</p>" "http://b.com/q"
    [SemEvent.acquireHeavy, SemEvent.releaseHeavy] none "" none rfl rfl rfl rfl rfl

theorem heavy_sem_not_acquired_on_fast_stage_witness :
    SemEvent.acquireHeavy ∉ (process_url wFastJson "http://a.com/x").semEvents :=
  heavy_sem_not_acquired_on_fast_stage wFastJson "http://a.com/x"
    { url := "http://a.com/x", httpStatus := some 200,
      finalUrl := some "http://a.com/x", stage := "fast-json", ok := true,
      path := some "out2/a.com/a.com_x_0000000000.html", api := none, err := none }
    (List.mem_singleton.mpr (by rfl)) (Or.inl rfl)

theorem heavy_render_catches_arun_exception_witness :
    (heavy_render wRenderFail).2 = Except.ok (none, "", none) :=
  heavy_render_catches_arun_exception wRenderFail "render down" rfl rfl

theorem find_xhr_candidates_literal_length_bounds_witness :
    ∃ g ∈ xhrGroups "fetch(\"/api/aaaaaaaaaa\")",
      10 ≤ g.length ∧ g.length ≤ 200
      ∧ "http://x.com/api/aaaaaaaaaa" = xhrResolve "http://x.com/p" g := by
  apply find_xhr_candidates_literal_length_bounds "fetch(\"/api/aaaaaaaaaa\")"
    "http://x.com/p" "http://x.com/api/aaaaaaaaaa"
  have h : find_xhr_candidates "fetch(\"/api/aaaaaaaaaa\")" "http://x.com/p"
      = ["http://x.com/api/aaaaaaaaaa"] := rfl
  rw [h]
  exact List.mem_singleton.mpr rfl
